import Mathlib

/-!
Verification of the Collatz Flask application (`src/collatz.py`).

The Python source is embedded shallowly:
* integers are Lean `Int` (Python has arbitrary precision, `//` is floor
  division, hence `Int.fdiv`);
* the `collatz_sequence` loop becomes a structural recursion on the number
  of remaining iterations;
* `ValueError` / `TypeError` become `Except` results;
* JSON values are modelled by the inductive `Jv` (the JSON types Flask's
  `request.get_json` can produce, except floating-point numbers, which no
  claim exercises);
* the `collatz_api` handler becomes a pure function from the parsed JSON
  payload (an association list) to an HTTP status code plus JSON body.
-/

/-- `MAX_STEPS = 1000` (src/collatz.py line 21). -/
def MAX_STEPS : Nat := 1000

/-- `INVALID_INPUT_MESSAGE` (src/collatz.py line 22). -/
def INVALID_INPUT_MESSAGE : String := "1 以上の整数を入力してください。"

/-- `CollatzStep` dataclass (src/collatz.py lines 25-31): one step of the
sequence. `step` is the loop index (always non-negative in the source), so it
is a `Nat`; `value` is a Python arbitrary-precision integer, so an `Int`. -/
structure CollatzStep where
  step : Nat
  value : Int
  operation : String
deriving Repr, DecidableEq

/-- `CollatzResult` dataclass (src/collatz.py lines 39-44). -/
structure CollatzResult where
  steps : List CollatzStep
  truncated : Bool
deriving Repr, DecidableEq

/-- The value update of one loop iteration (src/collatz.py lines 81-87):
`current // 2` when `current` is even, `current * 3 + 1` otherwise.
Python `//` is floor division, i.e. `Int.fdiv`. -/
def nextCollatz (current : Int) : Int :=
  if current % 2 == 0 then current.fdiv 2 else current * 3 + 1

/-- The `operation` description string built in the same branch
(src/collatz.py lines 84 and 87). -/
def operationFor (current : Int) : String :=
  let next_value := nextCollatz current
  if current % 2 == 0 then
    s!"{current} は偶数なので 2 で割って {next_value}"
  else
    s!"{current} は奇数なので 3×{current} + 1 = {next_value}"

/-- The `for step_index in range(1, max_steps + 1)` loop of
`collatz_sequence` (src/collatz.py lines 77-90), as a recursion on the
number of remaining iterations. Returns the list of appended steps together
with the final value of `current`. `step_index` is the index the next
appended step will carry. -/
def collatzSteps : Nat → Nat → Int → List CollatzStep × Int
  | _, 0, current => ([], current)
  | step_index, remaining + 1, current =>
    if current = 1 then ([], current)
    else
      let next_value := nextCollatz current
      let tail := collatzSteps (step_index + 1) remaining next_value
      ({ step := step_index, value := next_value,
         operation := operationFor current } :: tail.1, tail.2)

/-- `collatz_sequence(start, *, max_steps=MAX_STEPS)` (src/collatz.py lines
56-93). The Python default argument `max_steps=MAX_STEPS` is passed
explicitly at every call site of this embedding. `raise ValueError` becomes
an `Except.error`. -/
def collatz_sequence (start : Int) (max_steps : Nat) : Except String CollatzResult :=
  if start ≤ 0 then Except.error "start must be a positive integer"
  else
    let first : CollatzStep := { step := 0, value := start, operation := "開始値" }
    let tail := collatzSteps 1 max_steps start
    Except.ok { steps := first :: tail.1, truncated := tail.2 != 1 }

/-- `chainFrom prev l` says each value in `l` is obtained from its
predecessor (starting with `prev`) by one Collatz update. -/
def chainFrom (prev : Int) : List CollatzStep → Prop
  | [] => True
  | s :: rest => s.value = nextCollatz prev ∧ chainFrom s.value rest

lemma collatzSteps_spec (n idx : Nat) (cur : Int) :
    chainFrom cur (collatzSteps idx n cur).1 ∧
    ((collatzSteps idx n cur).1.map fun s => s.value).getLastD cur =
      (collatzSteps idx n cur).2 ∧
    (collatzSteps idx n cur).1.length ≤ n ∧
    ((collatzSteps idx n cur).1.map fun s => s.step) =
      List.range' idx (collatzSteps idx n cur).1.length := by
  induction n generalizing idx cur with
  | zero => simp [collatzSteps, chainFrom]
  | succ m ih =>
    by_cases h1 : cur = 1
    · simp [collatzSteps, h1, chainFrom]
    · obtain ⟨ihc, ihl, ihn, ihi⟩ := ih (idx + 1) (nextCollatz cur)
      simp only [collatzSteps, if_neg h1, List.map_cons, List.length_cons]
      refine ⟨⟨rfl, ihc⟩, ?_, by omega, ?_⟩
      · rw [List.getLastD_cons, ihl]
      · rw [ihi, List.range'_succ]

lemma collatzSteps_pos (n idx : Nat) (cur : Int) (hcur : 1 ≤ cur) :
    (∀ s ∈ (collatzSteps idx n cur).1, 1 ≤ s.value) ∧
    1 ≤ (collatzSteps idx n cur).2 := by
  induction n generalizing idx cur with
  | zero => simpa [collatzSteps] using hcur
  | succ m ih =>
    by_cases h1 : cur = 1
    · simp [collatzSteps, h1, hcur]
    · have hnext : 1 ≤ nextCollatz cur := by
        by_cases he : cur % 2 == 0
        · have hdvd : (2 : Int) ∣ cur :=
            Int.dvd_of_emod_eq_zero (by simpa using he)
          obtain ⟨c, hc⟩ := hdvd
          have hc1 : 1 ≤ c := by omega
          have heq : nextCollatz cur = cur.fdiv 2 := by simp [nextCollatz, he]
          rw [heq, hc, Int.mul_fdiv_cancel_left c (by norm_num)]
          exact hc1
        · have heq : nextCollatz cur = cur * 3 + 1 := by simp [nextCollatz, he]
          rw [heq]
          omega
      obtain ⟨iha, ihf⟩ := ih (idx + 1) (nextCollatz cur) hnext
      simp only [collatzSteps, if_neg h1]
      exact ⟨by simpa using ⟨hnext, iha⟩, ihf⟩

/-- Unfolding a successful run of `collatz_sequence`: the start was positive
and the result is the initial step followed by the loop's output, with
`truncated` set from the final current value. -/
lemma collatz_sequence_ok {start : Int} {k : Nat} {r : CollatzResult}
    (h : collatz_sequence start k = Except.ok r) :
    1 ≤ start ∧
    r = { steps := { step := 0, value := start, operation := "開始値" } ::
            (collatzSteps 1 k start).1,
          truncated := (collatzSteps 1 k start).2 != 1 } := by
  unfold collatz_sequence at h
  split at h
  · exact absurd h (by simp)
  · rename_i hpos
    refine ⟨by omega, ?_⟩
    exact (Except.ok.injEq _ _).mp h.symm

lemma chainFrom_consecutive (l : List CollatzStep) :
    ∀ (prev : Int), chainFrom prev l → ∀ (i : Nat) (a b : CollatzStep),
      l[i]? = some a → l[i + 1]? = some b → b.value = nextCollatz a.value := by
  induction l with
  | nil => intro prev _ i a b ha _; simp at ha
  | cons x m ih =>
    intro prev hc i a b ha hb
    obtain ⟨hx, hm⟩ := hc
    cases i with
    | zero =>
      rw [List.getElem?_cons_zero] at ha
      rw [List.getElem?_cons_succ] at hb
      cases m with
      | nil => simp at hb
      | cons y mm =>
        rw [List.getElem?_cons_zero] at hb
        injection ha with ha
        injection hb with hb
        subst ha; subst hb
        exact hm.1
    | succ j =>
      rw [List.getElem?_cons_succ] at ha hb
      exact ih x.value hm j a b ha hb

/-- Consecutive steps of `x :: l` are linked by the Collatz update, when the
tail `l` is a chain continuing `x`. -/
lemma chain_cons_consecutive (x : CollatzStep) (l : List CollatzStep)
    (hc : chainFrom x.value l) (i : Nat) (a b : CollatzStep)
    (ha : (x :: l)[i]? = some a) (hb : (x :: l)[i + 1]? = some b) :
    b.value = nextCollatz a.value := by
  cases i with
  | zero =>
    rw [List.getElem?_cons_zero] at ha
    rw [List.getElem?_cons_succ] at hb
    cases l with
    | nil => simp at hb
    | cons y m =>
      rw [List.getElem?_cons_zero] at hb
      injection ha with ha
      injection hb with hb
      subst ha; subst hb
      exact hc.1
  | succ j =>
    rw [List.getElem?_cons_succ] at ha hb
    exact chainFrom_consecutive l x.value hc j a b ha hb

/-- The step field of the `i`-th element emitted by the loop is `idx + i`. -/
lemma collatzSteps_step_eq (n : Nat) :
    ∀ (idx : Nat) (cur : Int) (i : Nat) (s : CollatzStep),
      (collatzSteps idx n cur).1[i]? = some s → s.step = idx + i := by
  induction n with
  | zero => intro idx cur i s hs; simp [collatzSteps] at hs
  | succ m ih =>
    intro idx cur i s hs
    by_cases hcur : cur = 1
    · simp [collatzSteps, hcur] at hs
    · simp only [collatzSteps, if_neg hcur] at hs
      cases i with
      | zero =>
        rw [List.getElem?_cons_zero] at hs
        injection hs with hs
        subst hs
        rfl
      | succ j =>
        rw [List.getElem?_cons_succ] at hs
        have := ih (idx + 1) (nextCollatz cur) j s hs
        omega

/-- The last element of a nonempty step list carries the `getLastD` of the
mapped values. -/
lemma getLast?_value (l : List CollatzStep) :
    ∀ (x : CollatzStep), ∃ t, (x :: l).getLast? = some t ∧
      t.value = (l.map fun s => s.value).getLastD x.value := by
  induction l with
  | nil => intro x; exact ⟨x, rfl, by simp⟩
  | cons y m ih =>
    intro x
    obtain ⟨t, ht, hv⟩ := ih y
    refine ⟨t, ?_, ?_⟩
    · rw [List.getLast?_cons_cons]; exact ht
    · rw [List.map_cons, List.getLastD_cons]; exact hv

/-- C1: in the result of `collatz_sequence(start, max_steps)`, each step's
value is obtained from the previous step's value `v` by exactly one rule:
`v / 2` (integer division) when `v` is even, `3 * v + 1` when `v` is odd. -/
theorem claim_c1_step_rule (start : Int) (max_steps : Nat) {r : CollatzResult}
    (h : collatz_sequence start max_steps = Except.ok r)
    (i : Nat) (a b : CollatzStep)
    (ha : r.steps[i]? = some a) (hb : r.steps[i + 1]? = some b) :
    (a.value % 2 = 0 → b.value = a.value.fdiv 2) ∧
    (a.value % 2 ≠ 0 → b.value = 3 * a.value + 1) := by
  obtain ⟨hpos, hr⟩ := collatz_sequence_ok h
  subst hr
  have hc : chainFrom start (collatzSteps 1 max_steps start).1 :=
    (collatzSteps_spec max_steps 1 start).1
  have hlink := chain_cons_consecutive
    { step := 0, value := start, operation := "開始値" } _ hc i a b ha hb
  constructor
  · intro he
    rw [hlink]
    simp [nextCollatz, he]
  · intro ho
    rw [hlink]
    simp only [nextCollatz, beq_iff_eq, if_neg ho]
    ring

theorem claim_c1_step_rule_witness :
    ({ step := 1, value := 1, operation := "2 は偶数なので 2 で割って 1" } :
        CollatzStep).value =
      ({ step := 0, value := 2, operation := "開始値" } : CollatzStep).value.fdiv 2 :=
  (claim_c1_step_rule 2 MAX_STEPS (by rfl) 0
      { step := 0, value := 2, operation := "開始値" }
      { step := 1, value := 1, operation := "2 は偶数なので 2 で割って 1" }
      (by rfl) (by rfl)).1 (by decide)

/-- C2: for a positive start `n`, `collatz_sequence(n)` (default
`max_steps`) has `steps[0].value = n`, and when `truncated = false` the last
step's value is `1`. -/
theorem claim_c2_endpoints (start : Int) {r : CollatzResult}
    (h : collatz_sequence start MAX_STEPS = Except.ok r) :
    (∃ s, r.steps[0]? = some s ∧ s.value = start) ∧
    (r.truncated = false → ∃ t, r.steps.getLast? = some t ∧ t.value = 1) := by
  obtain ⟨hpos, hr⟩ := collatz_sequence_ok h
  subst hr
  constructor
  · refine ⟨{ step := 0, value := start, operation := "開始値" }, ?_, rfl⟩
    simp
  · intro htr
    obtain ⟨t, ht, hv⟩ := getLast?_value (collatzSteps 1 MAX_STEPS start).1
      { step := 0, value := start, operation := "開始値" }
    refine ⟨t, ht, ?_⟩
    have hlast := (collatzSteps_spec MAX_STEPS 1 start).2.1
    have hfin : (collatzSteps 1 MAX_STEPS start).2 = 1 := by
      simpa using htr
    rw [hv, hlast, hfin]

theorem claim_c2_endpoints_witness :
    (∃ s, ([{ step := 0, value := 1, operation := "開始値" }] :
        List CollatzStep)[0]? = some s ∧ s.value = 1) ∧
    ((false : Bool) = false → ∃ t,
      ([{ step := 0, value := 1, operation := "開始値" }] :
        List CollatzStep).getLast? = some t ∧ t.value = 1) :=
  claim_c2_endpoints 1 (by rfl)

/-- C3: `collatz_sequence(n, max_steps := k)` produces at most `k + 1`
steps, and `truncated = true` iff the last produced step's value is not
`1`. -/
theorem claim_c3_truncation (start : Int) (k : Nat) {r : CollatzResult}
    (h : collatz_sequence start k = Except.ok r) :
    r.steps.length ≤ k + 1 ∧
    ∃ t, r.steps.getLast? = some t ∧ (r.truncated = true ↔ t.value ≠ 1) := by
  obtain ⟨hpos, hr⟩ := collatz_sequence_ok h
  subst hr
  obtain ⟨-, hlast, hlen, -⟩ := collatzSteps_spec k 1 start
  constructor
  · simpa using hlen
  · obtain ⟨t, ht, hv⟩ := getLast?_value (collatzSteps 1 k start).1
      { step := 0, value := start, operation := "開始値" }
    refine ⟨t, ht, ?_⟩
    have hvfin : t.value = (collatzSteps 1 k start).2 := by rw [hv, hlast]
    simp [hvfin]

theorem claim_c3_truncation_witness :
    ([{ step := 0, value := 1, operation := "開始値" }] :
        List CollatzStep).length ≤ MAX_STEPS + 1 ∧
    ∃ t, ([{ step := 0, value := 1, operation := "開始値" }] :
        List CollatzStep).getLast? = some t ∧
      ((false : Bool) = true ↔ t.value ≠ 1) :=
  claim_c3_truncation 1 MAX_STEPS (by rfl)

/-- C4: `collatz_sequence(start)` fails with the `ValueError` message when
`start ≤ 0`, and returns a result (does not raise) when `start ≥ 1`. -/
theorem claim_c4_input_validation (start : Int) :
    (start ≤ 0 → collatz_sequence start MAX_STEPS =
      Except.error "start must be a positive integer") ∧
    (1 ≤ start → ∃ r, collatz_sequence start MAX_STEPS = Except.ok r) := by
  constructor
  · intro hneg
    simp [collatz_sequence, hneg]
  · intro hpos
    refine ⟨⟨({ step := 0, value := start, operation := "開始値" } : CollatzStep) ::
        (collatzSteps 1 MAX_STEPS start).1,
        (collatzSteps 1 MAX_STEPS start).2 != 1⟩, ?_⟩
    unfold collatz_sequence
    rw [if_neg (by omega : ¬ start ≤ 0)]

theorem claim_c4_input_validation_witness :
    collatz_sequence (-3) MAX_STEPS =
      Except.error "start must be a positive integer" ∧
    ∃ r, collatz_sequence 5 MAX_STEPS = Except.ok r :=
  ⟨(claim_c4_input_validation (-3)).1 (by decide),
   (claim_c4_input_validation 5).2 (by decide)⟩

/-- C6: `collatz_sequence(6)` yields exactly the values
`[6, 3, 10, 5, 16, 8, 4, 2, 1]` with `truncated = false`. -/
theorem claim_c6_example_six :
    (collatz_sequence 6 MAX_STEPS).map
      (fun r => (r.steps.map fun s => s.value, r.truncated)) =
    Except.ok ([6, 3, 10, 5, 16, 8, 4, 2, 1], false) := by rfl

/-- C9: the steps of `collatz_sequence(start, max_steps)` are indexed
consecutively from `0`: the `i`-th element of `steps` has `step = i`. -/
theorem claim_c9_consecutive_indices (start : Int) (max_steps : Nat)
    {r : CollatzResult} (h : collatz_sequence start max_steps = Except.ok r)
    (i : Nat) (s : CollatzStep) (hs : r.steps[i]? = some s) :
    s.step = i := by
  obtain ⟨hpos, hr⟩ := collatz_sequence_ok h
  subst hr
  cases i with
  | zero =>
    rw [List.getElem?_cons_zero] at hs
    injection hs with hs
    subst hs
    rfl
  | succ j =>
    rw [List.getElem?_cons_succ] at hs
    have := collatzSteps_step_eq max_steps 1 start j s hs
    omega

theorem claim_c9_consecutive_indices_witness :
    ({ step := 1, value := 1, operation := "2 は偶数なので 2 で割って 1" } :
      CollatzStep).step = 1 :=
  claim_c9_consecutive_indices 2 MAX_STEPS (by rfl) 1
    { step := 1, value := 1, operation := "2 は偶数なので 2 で割って 1" } (by rfl)

/-- C10: every step value in a result of `collatz_sequence(start, max_steps)`
is a positive integer. -/
theorem claim_c10_positive_values (start : Int) (max_steps : Nat)
    {r : CollatzResult} (h : collatz_sequence start max_steps = Except.ok r) :
    ∀ s ∈ r.steps, 1 ≤ s.value := by
  obtain ⟨hpos, hr⟩ := collatz_sequence_ok h
  subst hr
  intro s hs
  rcases List.mem_cons.mp hs with hhead | htail
  · rw [hhead]
    exact hpos
  · exact (collatzSteps_pos max_steps 1 start hpos).1 s htail

theorem claim_c10_positive_values_witness :
    1 ≤ ({ step := 0, value := 1, operation := "開始値" } : CollatzStep).value :=
  claim_c10_positive_values 1 MAX_STEPS (by rfl)
    { step := 0, value := 1, operation := "開始値" } (by simp)

/-! ## The web API (`/api/collatz`) -/

/-- A JSON value, as produced by Flask's `request.get_json` for the request
body. Floating-point JSON numbers are outside this model; no claim
exercises them. -/
inductive Jv where
  | null
  | bool (b : Bool)
  | int (n : Int)
  | str (s : String)
  | list (xs : List Jv)
  | obj (fields : List (String × Jv))

/-- The Python exception kinds caught by `collatz_api`
(src/collatz.py line 127). -/
inductive PyErr where
  | typeError
  | valueError
deriving DecidableEq, Repr

/-- Value of a run of ASCII digits in which an underscore may stand between
two digits (as Python's `int(str)` accepts); `acc` is the value of the
digits already consumed. -/
def digitsCore : List Char → Nat → Option Nat
  | [], acc => some acc
  | '_' :: c :: rest, acc =>
    if c.isDigit then digitsCore rest (acc * 10 + (c.toNat - 48)) else none
  | c :: rest, acc =>
    if c.isDigit then digitsCore rest (acc * 10 + (c.toNat - 48)) else none

/-- A nonempty digit run (underscores only between digits). -/
def parseDigits : List Char → Option Nat
  | [] => none
  | c :: rest => if c.isDigit then digitsCore rest (c.toNat - 48) else none

/-- Python's `str.strip()` with no argument: drop whitespace from both
ends. -/
def pyStrip (chars : List Char) : List Char :=
  ((chars.dropWhile Char.isWhitespace).reverse.dropWhile
    Char.isWhitespace).reverse

/-- Python's `int(s)` for an ASCII string: surrounding whitespace is
stripped, then an optional sign followed by digits. `none` where Python
raises `ValueError`. -/
def pyIntOfString (s : String) : Option Int :=
  match pyStrip s.toList with
  | '+' :: rest => (parseDigits rest).map (fun n => (n : Int))
  | '-' :: rest => (parseDigits rest).map (fun n => -(n : Int))
  | chars => (parseDigits chars).map (fun n => (n : Int))

/-- Python's built-in `int(value)` applied to a JSON value: `TypeError` for
`None`, lists and objects; `True`/`False` become `1`/`0`; integers pass
through; strings are parsed (`ValueError` on failure). -/
def pyInt : Jv → Except PyErr Int
  | Jv.null => Except.error PyErr.typeError
  | Jv.bool b => Except.ok (if b then 1 else 0)
  | Jv.int n => Except.ok n
  | Jv.str s =>
    match pyIntOfString s with
    | some n => Except.ok n
    | none => Except.error PyErr.valueError
  | Jv.list _ => Except.error PyErr.typeError
  | Jv.obj _ => Except.error PyErr.typeError

/-- `_parse_positive_int(value)` (src/collatz.py lines 107-117):
`number = int(value)`, then `ValueError` when `number < 1`. -/
def _parse_positive_int (value : Jv) : Except PyErr Int :=
  match pyInt value with
  | Except.error e => Except.error e
  | Except.ok number =>
    if number < 1 then Except.error PyErr.valueError else Except.ok number

/-- An HTTP response: status code plus JSON body. -/
structure HttpResponse where
  status : Nat
  body : Jv

/-- `_json_error(message)` (src/collatz.py lines 101-104) with its default
status code 400. -/
def _json_error (message : String) : HttpResponse :=
  { status := 400, body := Jv.obj [("error", Jv.str message)] }

/-- `CollatzStep.to_dict` (src/collatz.py lines 33-36). -/
def CollatzStep.to_dict (s : CollatzStep) : Jv :=
  Jv.obj [("step", Jv.int (s.step : Int)), ("value", Jv.int s.value),
          ("operation", Jv.str s.operation)]

/-- `CollatzResult.to_response_payload(max_steps=...)` (src/collatz.py
lines 46-53). -/
def CollatzResult.to_response_payload (r : CollatzResult) (max_steps : Nat) : Jv :=
  Jv.obj [("steps", Jv.list (r.steps.map CollatzStep.to_dict)),
          ("truncated", Jv.bool r.truncated),
          ("max_steps", Jv.int (max_steps : Int))]

/-- The `POST /api/collatz` handler `collatz_api` (src/collatz.py lines
120-135), as a function of the parsed JSON body. A missing or non-object
body is the empty association list; `payload.get("number")` yields Python
`None` (`Jv.null`) when the key is absent. -/
def collatz_api (payload : List (String × Jv)) : HttpResponse :=
  let raw_number := (payload.lookup "number").getD Jv.null
  match _parse_positive_int raw_number with
  | Except.error _ => _json_error INVALID_INPUT_MESSAGE
  | Except.ok number =>
    match collatz_sequence number MAX_STEPS with
    | Except.error _ => _json_error INVALID_INPUT_MESSAGE
    | Except.ok result =>
      { status := 200, body := result.to_response_payload MAX_STEPS }

/-- A successful `_parse_positive_int` always returns an integer `≥ 1`. -/
lemma parse_positive_int_ge_one {v : Jv} {n : Int}
    (h : _parse_positive_int v = Except.ok n) : 1 ≤ n := by
  unfold _parse_positive_int at h
  cases hq : pyInt v with
  | error e => rw [hq] at h; exact absurd h (by simp)
  | ok m =>
    rw [hq] at h
    dsimp only at h
    by_cases hm : m < 1
    · rw [if_pos hm] at h; exact absurd h (by simp)
    · rw [if_neg hm] at h
      injection h with h
      omega

/-- C7: a valid request (positive-integer `"number"`) to `POST /api/collatz`
yields a JSON object with a `"steps"` list of objects carrying integer
`"step"`, integer `"value"` and string `"operation"`, a boolean
`"truncated"`, and `"max_steps"` equal to the constant `1000`. -/
theorem claim_c7_response_shape (payload : List (String × Jv)) (n : Int)
    (hn : 1 ≤ n) (hfield : payload.lookup "number" = some (Jv.int n)) :
    ∃ stepObjs t,
      collatz_api payload =
        { status := 200,
          body := Jv.obj [("steps", Jv.list stepObjs),
                          ("truncated", Jv.bool t),
                          ("max_steps", Jv.int 1000)] } ∧
      ∀ j ∈ stepObjs, ∃ s v o,
        j = Jv.obj [("step", Jv.int s), ("value", Jv.int v),
                    ("operation", Jv.str o)] := by
  have hparse : _parse_positive_int (Jv.int n) = Except.ok n := by
    unfold _parse_positive_int pyInt
    dsimp only
    rw [if_neg (by omega : ¬ n < 1)]
  have hseq : collatz_sequence n MAX_STEPS = Except.ok
      ⟨({ step := 0, value := n, operation := "開始値" } : CollatzStep) ::
        (collatzSteps 1 MAX_STEPS n).1,
       (collatzSteps 1 MAX_STEPS n).2 != 1⟩ := by
    unfold collatz_sequence
    rw [if_neg (by omega : ¬ n ≤ 0)]
  refine ⟨(({ step := 0, value := n, operation := "開始値" } : CollatzStep) ::
      (collatzSteps 1 MAX_STEPS n).1).map CollatzStep.to_dict,
    (collatzSteps 1 MAX_STEPS n).2 != 1, ?_, ?_⟩
  · unfold collatz_api
    rw [hfield]
    dsimp only [Option.getD_some]
    rw [hparse]
    dsimp only
    rw [hseq]
    rfl
  · intro j hj
    obtain ⟨s, hsmem, hs⟩ := List.mem_map.mp hj
    exact ⟨(s.step : Int), s.value, s.operation, hs.symm⟩

theorem claim_c7_response_shape_witness :
    ∃ stepObjs t,
      collatz_api [("number", Jv.int 1)] =
        { status := 200,
          body := Jv.obj [("steps", Jv.list stepObjs),
                          ("truncated", Jv.bool t),
                          ("max_steps", Jv.int 1000)] } ∧
      ∀ j ∈ stepObjs, ∃ s v o,
        j = Jv.obj [("step", Jv.int s), ("value", Jv.int v),
                    ("operation", Jv.str o)] :=
  claim_c7_response_shape [("number", Jv.int 1)] 1 (by decide) (by rfl)

/-- C5 counterexample: the JSON string `"7"` is not an integer, yet the
handler coerces it with `int()` and answers 200, not 400. -/
theorem claim_c5_counterexample :
    (collatz_api [("number", Jv.str "7")]).status = 200 ∧
    (collatz_api [("number", Jv.str "7")]).status ≠ 400 := by
  constructor
  · rfl
  · decide

/-- C5 amended: the handler answers 400 with the localized error body
exactly when Python `int()` coercion of the `"number"` value fails (missing
field, `null`, unparsable string, list or object) or the coerced integer is
less than 1; a value that `int()` coerces to an integer `≥ 1` — including a
numeric string or a boolean — is accepted. -/
theorem claim_c5_amended_rejection (payload : List (String × Jv)) :
    collatz_api payload = _json_error INVALID_INPUT_MESSAGE ↔
    ∃ e, _parse_positive_int ((payload.lookup "number").getD Jv.null) =
      Except.error e := by
  unfold collatz_api
  cases hp : _parse_positive_int ((payload.lookup "number").getD Jv.null) with
  | error e =>
    simp [hp]
  | ok n =>
    have hn : 1 ≤ n := parse_positive_int_ge_one hp
    have hseq : collatz_sequence n MAX_STEPS = Except.ok
        ⟨({ step := 0, value := n, operation := "開始値" } : CollatzStep) ::
          (collatzSteps 1 MAX_STEPS n).1,
         (collatzSteps 1 MAX_STEPS n).2 != 1⟩ := by
      unfold collatz_sequence
      rw [if_neg (by omega : ¬ n ≤ 0)]
    simp only [hp]
    rw [hseq]
    constructor
    · intro hcontra
      have : (200 : Nat) = 400 := congrArg HttpResponse.status hcontra
      exact absurd this (by decide)
    · intro ⟨e, he⟩
      exact absurd he (by simp)

/-! ## The command line (`parse_args` / `main`) -/

/-- The `argparse.Namespace` that `parse_args` produces (src/collatz.py
lines 136-164): the server host, port and debug flag — the parser declares
no positional argument. -/
structure Namespace where
  host : String
  port : Int
  debug : Bool
deriving Repr, DecidableEq

/-- Outcome of an argparse run over the argument vector: a parsed
namespace, the automatic help action (`-h`/`--help` prints usage and exits
with status 0), or a parse error (argparse exits with status 2). -/
inductive ArgparseOutcome where
  | ok (ns : Namespace)
  | help
  | error (msg : String)
deriving Repr, DecidableEq

/-- The long option strings of the parser declared in `parse_args`, in
declaration order: the automatic `--help`, then the four flags added in
src/collatz.py lines 140-162. -/
def longOptions : List String :=
  ["--help", "--host", "--port", "--debug", "--no-debug"]

/-- Python's `' '.join`, used by argparse for the unrecognized-arguments
message. -/
def joinSpaces : List String → String
  | [] => ""
  | [s] => s
  | s :: rest => s ++ " " ++ joinSpaces rest

/-- Python's `', '.join`, used by argparse for the ambiguous-option
message. -/
def joinCommas : List String → String
  | [] => ""
  | [s] => s
  | s :: rest => s ++ ", " ++ joinCommas rest

/-- Split a token at its first `=` (argparse's `--option=value` form). -/
def splitOnEq : List Char → List Char × Option (List Char)
  | [] => ([], none)
  | '=' :: rest => ([], some rest)
  | c :: rest =>
    let r := splitOnEq rest
    (c :: r.1, r.2)

/-- argparse's long-option lookup with its default `allow_abbrev=True`: an
exact match wins, otherwise every declared option that the given name
abbreviates is a candidate (two or more candidates is the ambiguous-option
error). -/
def optionCandidates (name : String) : List String :=
  if longOptions.contains name then [name]
  else longOptions.filter (fun o => name.toList.isPrefixOf o.toList)

/-- argparse's negative-number matcher (`-\d+` or `-\d*\.\d+`). Since none
of this parser's option strings looks like a negative number, a token
matching it is classified as a positional, never as an option. -/
def negNumberMatcher : List Char → Bool
  | '-' :: rest =>
    (!rest.isEmpty && rest.all Char.isDigit) ||
    (match rest.dropWhile Char.isDigit with
     | '.' :: frac => !frac.isEmpty && frac.all Char.isDigit
     | _ => false)
  | _ => false

/-- Whether argparse classifies a token as option-like (`O`) rather than as
a positional argument (`A`): it starts with `-`, is not the bare `-`, does
not match the negative-number pattern, and contains no space. `--host` and
`--port` refuse to consume an option-like token as their value. -/
def classifiedAsOption (cs : List Char) : Bool :=
  match cs with
  | [] => false
  | ['-'] => false
  | '-' :: _ => !negNumberMatcher cs && !cs.contains ' '
  | _ => false

/-- End of the argparse pass: no collected extras is a successful parse,
otherwise the `unrecognized arguments` error (argparse exits 2). -/
def finishExtras (ns : Namespace) : List String → ArgparseOutcome
  | [] => ArgparseOutcome.ok ns
  | es => ArgparseOutcome.error ("unrecognized arguments: " ++ joinSpaces es)

/-- argparse's pass over the argument vector (each token given as its
character list) for the parser declared in `parse_args` (src/collatz.py
lines 139-163), with argparse's default behaviours: the automatic
`-h`/`--help`, `--option=value` forms, unambiguous abbreviation of long
options, the bare `--` separator (every later token is positional),
refusal of an option-like token as the value of `--host`/`--port`, and a
zero-argument flag given an explicit `=value` is an error. The parser
declares no positional argument, so every token classified as positional —
and every unknown option — is collected in `extras` and reported at the
end as `unrecognized arguments` (`finishExtras`). Degenerate forms such as
`--=value` are outside the model. -/
def parseArgsLoop : List (List Char) → Namespace → List String → ArgparseOutcome
  | [], ns, extras => finishExtras ns extras.reverse
  | ['-', '-'] :: rest, ns, extras =>
    finishExtras ns (extras.reverse ++ rest.map String.mk)
  | ('-' :: '-' :: cs) :: rest, ns, extras =>
    let tok := String.mk ('-' :: '-' :: cs)
    let parts := splitOnEq ('-' :: '-' :: cs)
    let name := String.mk parts.1
    let inline := parts.2.map String.mk
    match optionCandidates name with
    | [] => parseArgsLoop rest ns (tok :: extras)
    | [opt] =>
      if opt = "--help" then
        match inline with
        | some v => ArgparseOutcome.error
            ("argument --help: ignored explicit argument '" ++ v ++ "'")
        | none => ArgparseOutcome.help
      else if opt = "--debug" then
        match inline with
        | some v => ArgparseOutcome.error
            ("argument --debug: ignored explicit argument '" ++ v ++ "'")
        | none => parseArgsLoop rest { ns with debug := true } extras
      else if opt = "--no-debug" then
        match inline with
        | some v => ArgparseOutcome.error
            ("argument --no-debug: ignored explicit argument '" ++ v ++ "'")
        | none => parseArgsLoop rest { ns with debug := false } extras
      else if opt = "--host" then
        match inline with
        | some v => parseArgsLoop rest { ns with host := v } extras
        | none =>
          match rest with
          | [] => ArgparseOutcome.error "argument --host: expected one argument"
          | v :: rest2 =>
            if classifiedAsOption v then
              ArgparseOutcome.error "argument --host: expected one argument"
            else parseArgsLoop rest2 { ns with host := String.mk v } extras
      else
        match inline with
        | some v =>
          match pyIntOfString v with
          | some p => parseArgsLoop rest { ns with port := p } extras
          | none => ArgparseOutcome.error
              ("argument --port: invalid int value: '" ++ v ++ "'")
        | none =>
          match rest with
          | [] => ArgparseOutcome.error "argument --port: expected one argument"
          | v :: rest2 =>
            if classifiedAsOption v then
              ArgparseOutcome.error "argument --port: expected one argument"
            else
              match pyIntOfString (String.mk v) with
              | some p => parseArgsLoop rest2 { ns with port := p } extras
              | none => ArgparseOutcome.error
                  ("argument --port: invalid int value: '" ++ String.mk v ++ "'")
    | mult => ArgparseOutcome.error
        ("ambiguous option: " ++ tok ++ " could match " ++ joinCommas mult)
  | ['-', 'h'] :: _, _, _ => ArgparseOutcome.help
  | ('-' :: 'h' :: c :: more) :: _, _, _ =>
    let v := if c = '=' then more else c :: more
    ArgparseOutcome.error
      ("argument -h: ignored explicit argument '" ++ String.mk v ++ "'")
  | cs :: rest, ns, extras => parseArgsLoop rest ns (String.mk cs :: extras)

/-- `parse_args()` (src/collatz.py lines 136-164). The defaults come from
the `HOST` and `PORT` environment variables (modelled as already-read
optional values) or `"0.0.0.0"` / `5000`; `debug` defaults to `True`. -/
def parse_args (env_host : Option String) (env_port : Option Int)
    (argv : List String) : ArgparseOutcome :=
  parseArgsLoop (argv.map String.toList)
    { host := env_host.getD "0.0.0.0", port := env_port.getD 5000,
      debug := true } []

/-- Sanity of the argparse model on the behaviours that distinguish it
from a naive flag matcher: `--option=value`, unambiguous abbreviation,
the automatic help, the ambiguous-option error, refusal of an option-like
value, and a negative number accepted as a value. -/
lemma parse_args_model_cases :
    parse_args none none ["--host=localhost"] =
      ArgparseOutcome.ok { host := "localhost", port := 5000, debug := true } ∧
    parse_args none none ["--deb"] =
      ArgparseOutcome.ok { host := "0.0.0.0", port := 5000, debug := true } ∧
    parse_args none none ["-h"] = ArgparseOutcome.help ∧
    parse_args none none ["--h"] =
      ArgparseOutcome.error "ambiguous option: --h could match --help, --host" ∧
    parse_args none none ["--host", "--debug"] =
      ArgparseOutcome.error "argument --host: expected one argument" ∧
    parse_args none none ["--port", "-5"] =
      ArgparseOutcome.ok { host := "0.0.0.0", port := -5, debug := true } :=
  ⟨rfl, rfl, rfl, rfl, rfl, rfl⟩

/-- C8 counterexample: invoking the CLI with the single positional integer
argument `6` is an argparse error — the CLI does not read a positional
integer, it only serves the web app. -/
theorem claim_c8_counterexample :
    parse_args none none ["6"] =
      ArgparseOutcome.error ("unrecognized arguments: " ++ "6") := by rfl

/-- C8 amended: the CLI takes no positional argument — every token that
does not begin with `-` (in particular a positional integer) is rejected
with an argparse `unrecognized arguments` error — and with an empty
argument vector it accepts the defaults (host `0.0.0.0` / `HOST`, port
`5000` / `PORT`, debug `True`) and proceeds to start the web server; only
the optional `--host`, `--port`, `--debug`, `--no-debug` flags (plus
argparse's automatic `-h`/`--help`, `=value` forms and unambiguous
abbreviations) are understood, and no sequence is printed. -/
theorem claim_c8_amended_cli (env_host : Option String) (env_port : Option Int)
    (arg : String) (h : arg.toList.head? ≠ some '-') :
    parse_args env_host env_port [arg] =
      ArgparseOutcome.error ("unrecognized arguments: " ++ arg) ∧
    parse_args env_host env_port [] =
      ArgparseOutcome.ok { host := env_host.getD "0.0.0.0",
                           port := env_port.getD 5000, debug := true } := by
  constructor
  · unfold parse_args
    dsimp only [List.map]
    rw [parseArgsLoop.eq_def]
    split
    all_goals first
      | rfl
      | (rename_i heq; injection heq with hcs hrest; subst hcs; subst hrest; rfl)
      | simp_all
  · rfl

theorem claim_c8_amended_cli_witness :
    parse_args none none ["6"] =
      ArgparseOutcome.error ("unrecognized arguments: " ++ "6") ∧
    parse_args none none [] =
      ArgparseOutcome.ok { host := (none : Option String).getD "0.0.0.0",
                           port := (none : Option Int).getD 5000,
                           debug := true } :=
  claim_c8_amended_cli none none "6" (by decide)
